import Mathlib

/-!
Verification of the smart-wallet backend core: the classification
orchestrator (`backend/ai_agent.py`), the record materializer
(`backend/helper.py`) and the statement extractors
(`backend/pdf_processor.py`), shallowly embedded in Lean.

Python strings are modelled as Lean `String`, machine floats as `ℚ`
(amounts and confidences in the program are decimal values read from
JSON or produced by `round`/`float`), Python `dict` rows as structures,
and the dynamically typed JSON values coming back from the oracle as
explicit sum types.  Fallible code is modelled with `Option`/`Except`.
-/

namespace SmartWallet

/-! ### Python string primitives -/

/-- `List.isPrefixOf`-style check, written out so that every string
primitive used by the embedding is explicit. -/
def prefixCheck : List Char → List Char → Bool
  | [], _ => true
  | _ :: _, [] => false
  | a :: as, b :: bs => a == b && prefixCheck as bs

/-- Python `needle in hay` substring test. -/
def infixCheck (needle : List Char) : List Char → Bool
  | [] => prefixCheck needle []
  | c :: cs => prefixCheck needle (c :: cs) || infixCheck needle cs

/-- Python `needle in hay` on strings. -/
def pyIn (needle hay : String) : Bool :=
  infixCheck needle.toList hay.toList

/-- Case-insensitive prefix check (ASCII lowering, as in `re.IGNORECASE`
over the letters appearing in the program's patterns). -/
def prefixCheckCI (needle hay : List Char) : Bool :=
  prefixCheck (needle.map Char.toLower) (hay.map Char.toLower)

/-- Split a char list at every char satisfying `p`, keeping empty
fields (the behaviour of Python `str.split(sep)` for a one-char
separator). -/
def splitByPred (p : Char → Bool) : List Char → List (List Char)
  | [] => [[]]
  | c :: rest =>
      if p c then [] :: splitByPred p rest
      else
        match splitByPred p rest with
        | [] => [[c]]
        | g :: gs => (c :: g) :: gs

/-- Python `str.split()` with no separator: split on whitespace runs,
discarding empty fields. -/
def pySplitWs (s : String) : List String :=
  ((splitByPred Char.isWhitespace s.toList).map String.mk).filter (fun t => t ≠ "")

/-- Python `str.split(sep)` for a one-character separator. -/
def pySplitOnChar (sep : Char) (s : String) : List String :=
  (splitByPred (fun c => c = sep) s.toList).map String.mk

/-- Leading and trailing whitespace removal (Python `str.strip()` over
the whitespace characters that occur in statement text). -/
def trimChars (cs : List Char) : List Char :=
  ((cs.dropWhile Char.isWhitespace).reverse.dropWhile Char.isWhitespace).reverse

/-- Python `str.strip()`. -/
def pyTrim (s : String) : String :=
  String.mk (trimChars s.toList)

/-- Python `str.lower()` (ASCII letters, the only cased characters the
program's inputs contain). -/
def pyLower (s : String) : String :=
  String.mk (s.toList.map Char.toLower)

/-- Python `c in s` for a single character. -/
def containsChar (s : String) (c : Char) : Bool :=
  s.toList.contains c

/-- Python `s.replace(old, new)`: replace every non-overlapping
occurrence, scanning left to right.  (The program never calls it with an
empty `old`.)  Written with a fuel argument so that the recursion is
structural; `replaceAll` supplies enough fuel for the whole input. -/
def replaceAllFuel (pat rep : List Char) : Nat → List Char → List Char
  | 0, cs => cs
  | _ + 1, [] => []
  | fuel + 1, c :: rest =>
      if pat ≠ [] ∧ prefixCheck pat (c :: rest) then
        rep ++ replaceAllFuel pat rep fuel (rest.drop (pat.length - 1))
      else
        c :: replaceAllFuel pat rep fuel rest

/-- Python `s.replace(old, new)` on char lists. -/
def replaceAll (pat rep cs : List Char) : List Char :=
  replaceAllFuel pat rep cs.length cs

/-- Python `s.replace(old, new)` on strings. -/
def pyReplace (s old new : String) : String :=
  String.mk (replaceAll old.toList new.toList s.toList)

/-! ### Numeric primitives (`float`, `round`) -/

/-- Numeric value of a digit run. -/
def digitsVal (ds : List Char) : Nat :=
  ds.foldl (fun a c => 10 * a + (c.toNat - 48)) 0

/-- Exponent part of a Python float literal (`e`/`E`, optional sign,
digits), applied to a mantissa. -/
def pyFloatExp (m : ℚ) : List Char → Option ℚ
  | [] => some m
  | e :: rest =>
      if e = 'e' ∨ e = 'E' then
        let sr : Bool × List Char :=
          match rest with
          | '+' :: r => (false, r)
          | '-' :: r => (true, r)
          | r => (false, r)
        let ds := sr.2.takeWhile Char.isDigit
        let rest3 := sr.2.dropWhile Char.isDigit
        if ds.isEmpty ∨ rest3 ≠ [] then none
        else some (if sr.1 then m / 10 ^ digitsVal ds else m * 10 ^ digitsVal ds)
      else none

/-- Mantissa of a Python float literal: `digits[.digits]`, `.digits` or
`digits.`; at least one digit. -/
def pyFloatMant (cs : List Char) : Option (ℚ × List Char) :=
  let ip := cs.takeWhile Char.isDigit
  let r1 := cs.dropWhile Char.isDigit
  match r1 with
  | '.' :: r2 =>
      let fp := r2.takeWhile Char.isDigit
      let r3 := r2.dropWhile Char.isDigit
      if ip.isEmpty ∧ fp.isEmpty then none
      else some (((digitsVal (ip ++ fp) : ℚ)) / 10 ^ fp.length, r3)
  | _ => if ip.isEmpty then none else some ((digitsVal ip : ℚ), r1)

/-- Model of Python `float(str)`: surrounding whitespace, an optional
sign, a decimal mantissa and an optional exponent.  (`inf`/`nan` and
digit-group underscores are not modelled; no input of this program
produces them.)  `none` is a `ValueError`. -/
def pyFloatOfString (s : String) : Option ℚ :=
  let cs := trimChars s.toList
  let sr : Bool × List Char :=
    match cs with
    | '+' :: r => (false, r)
    | '-' :: r => (true, r)
    | r => (false, r)
  match pyFloatMant sr.2 with
  | none => none
  | some mr =>
      match pyFloatExp mr.1 mr.2 with
      | none => none
      | some v => some (if sr.1 then -v else v)

/-- A raw Python value in the `amount` slot of an extractor row: a
number, a string, or `None`. -/
inductive PyVal where
  | num (q : ℚ)
  | str (s : String)
  | noneVal
deriving DecidableEq, Repr

/-- `float(a)` on such a value: numbers pass through, strings are
parsed, `None` raises `TypeError` (`none` here). -/
def pyFloatVal : PyVal → Option ℚ
  | PyVal.num q => some q
  | PyVal.str s => pyFloatOfString s
  | PyVal.noneVal => none

/-- Python `round(x)` to an integer: round half to even. -/
def roundHalfEven (q : ℚ) : ℤ :=
  let f := ⌊q⌋
  let r := q - (f : ℚ)
  if r < 1/2 then f
  else if (1 : ℚ)/2 < r then f + 1
  else if f % 2 = 0 then f else f + 1

/-! ### `helper.py`: the record materializer -/

/-- `normalize_amount`: `round(float(a), 2)`, and `0.0` on any parse
failure. -/
def normalize_amount (a : PyVal) : ℚ :=
  match pyFloatVal a with
  | some q => ((roundHalfEven (q * 100) : ℤ) : ℚ) / 100
  | none => 0

/-- Drop a leading run of `s`/`S` (the `s*` of the pattern, compiled
with `re.IGNORECASE`). -/
def dropSRunCI (cs : List Char) : List Char :=
  cs.dropWhile (fun c => c = 's' ∨ c = 'S')

/-- Drop a leading run of lowercase `s` (the `s*` of a pattern compiled
without `re.IGNORECASE`). -/
def dropSRun (cs : List Char) : List Char :=
  cs.dropWhile (fun c => c = 's')

/-- Case-insensitive literal prefix: returns the remainder. -/
def stripLitCI : List Char → List Char → Option (List Char)
  | [], cs => some cs
  | _ :: _, [] => none
  | p :: ps, c :: cs => if p.toLower = c.toLower then stripLitCI ps cs else none

/-- One alternative of `clean_details`' first pattern
`^(Paid\\s*to|Paidto|Received\\s*from|Receivedfrom)` — note that the
pattern is a *raw* string, so `\\s` matches a literal backslash followed
by `s` characters, not whitespace.  `word1 \ s* word2` form. -/
def cleanPat1Backslash (w1 w2 : String) (cs : List Char) : Option (List Char) :=
  match stripLitCI w1.toList cs with
  | none => none
  | some r1 =>
      match r1 with
      | '\\' :: r2 => stripLitCI w2.toList (dropSRunCI r2)
      | _ => none

/-- The group of `clean_details`' first pattern: the four alternatives
in source order. -/
def cleanPat1Group (cs : List Char) : Option (List Char) :=
  (cleanPat1Backslash "Paid" "to" cs).orElse fun _ =>
  (stripLitCI "Paidto".toList cs).orElse fun _ =>
  (cleanPat1Backslash "Received" "from" cs).orElse fun _ =>
  stripLitCI "Receivedfrom".toList cs

/-- `re.sub` of the raw-string pattern `^(Paid\\s*to|Paidto|Received\\s*from|Receivedfrom)\\s*` with `re.IGNORECASE`:
after the group the pattern requires a literal backslash and a run of
`s` characters. -/
def cleanSub1 (cs : List Char) : List Char :=
  match cleanPat1Group cs with
  | some rest =>
      match rest with
      | '\\' :: r2 => dropSRunCI r2
      | _ => cs
  | none => cs

/-- `re.sub` of the raw-string pattern `^[-–—]+\\s*`: one or more dashes, then a literal
backslash and a run of (lowercase) `s` characters. -/
def cleanSub2 (cs : List Char) : List Char :=
  let dashes := cs.takeWhile (fun c => c = '-' ∨ c = '–' ∨ c = '—')
  let rest := cs.dropWhile (fun c => c = '-' ∨ c = '–' ∨ c = '—')
  if dashes.isEmpty then cs
  else
    match rest with
    | '\\' :: r2 => dropSRun r2
    | _ => cs

/-- `re.sub` of the raw-string pattern `\\s+` with replacement `" "`:
every occurrence of a literal backslash followed by one or more `s`
characters becomes one space.  Implemented as a left-to-right scan with
three states — 0: plain text; 1: a backslash has been read but no `s`
yet; 2: inside the `s` run of a match. -/
def cleanSub3Aux : Nat → List Char → List Char
  | 0, [] => []
  | 0, '\\' :: rest => cleanSub3Aux 1 rest
  | 0, c :: rest => c :: cleanSub3Aux 0 rest
  | 1, [] => ['\\']
  | 1, 's' :: rest => cleanSub3Aux 2 rest
  | 1, '\\' :: rest => '\\' :: cleanSub3Aux 1 rest
  | 1, c :: rest => '\\' :: c :: cleanSub3Aux 0 rest
  | 2, [] => [' ']
  | 2, 's' :: rest => cleanSub3Aux 2 rest
  | 2, '\\' :: rest => ' ' :: cleanSub3Aux 1 rest
  | 2, c :: rest => ' ' :: c :: cleanSub3Aux 0 rest
  | _ + 3, cs => cs

/-- The full third substitution of `clean_details`. -/
def cleanSub3 (cs : List Char) : List Char :=
  cleanSub3Aux 0 cs

/-- `clean_details` exactly as written in `helper.py` (with its
raw-string patterns). -/
def clean_details (details : Option String) : String :=
  match details with
  | none => ""
  | some s0 =>
      if s0 = "" then ""
      else pyTrim (String.mk (cleanSub3 (cleanSub2 (cleanSub1 s0.toList))))

/-- `normalize_type`: keep an explicit `Debit`/`Credit`, otherwise infer
from lowercased details (the final line returns `Debit` on both sides of
its conditional, exactly as in the source). -/
def normalize_type (t : Option String) (details : Option String) : String :=
  match t with
  | some "Debit" => "Debit"
  | some "Credit" => "Credit"
  | _ =>
      let d := pyLower (details.getD "")
      if pyIn "received" d then "Credit"
      else if pyIn "paid" d ∨ pyIn "debit" d then "Debit"
      else if pyIn "imps" d ∨ pyIn "ecom pur" d ∨ pyIn "pos" d then "Debit"
      else "Debit"

/-! ### `normalize_date`: `strptime` over the five formats, then the
ISO fallback -/

/-- Month number of a 3-letter abbreviation, case-insensitively. -/
def monthAbbrevNum (a b c : Char) : Option Nat :=
  let s := String.mk [a.toLower, b.toLower, c.toLower]
  if s = "jan" then some 1 else if s = "feb" then some 2
  else if s = "mar" then some 3 else if s = "apr" then some 4
  else if s = "may" then some 5 else if s = "jun" then some 6
  else if s = "jul" then some 7 else if s = "aug" then some 8
  else if s = "sep" then some 9 else if s = "oct" then some 10
  else if s = "nov" then some 11 else if s = "dec" then some 12
  else none

/-- Digit value of a char. -/
def digitVal (c : Char) : Nat := c.toNat - 48

/-- `%d`/`%m` field: try two digits (01–31 resp. 01–12, not 00), else
one digit (1–9); `hi` is the field's upper bound.  The continuation
receives the value and the rest, so the 2-vs-1-digit choice backtracks
like the `strptime` regex. -/
def pTwoOrOneDigit (hi : Nat) (cs : List Char)
    (k : Nat → List Char → Option (Nat × Nat × Nat)) : Option (Nat × Nat × Nat) :=
  (match cs with
   | c1 :: c2 :: rest =>
       if c1.isDigit ∧ c2.isDigit then
         let v := 10 * digitVal c1 + digitVal c2
         if 1 ≤ v ∧ v ≤ hi then k v rest else none
       else none
   | _ => none).orElse fun _ =>
  match cs with
  | c1 :: rest => if c1.isDigit ∧ 1 ≤ digitVal c1 ∧ digitVal c1 ≤ 9 then k (digitVal c1) rest else none
  | [] => none

/-- `%Y`: exactly four digits. -/
def pYear4 (cs : List Char) : Option (Nat × List Char) :=
  match cs with
  | a :: b :: c :: d :: rest =>
      if a.isDigit ∧ b.isDigit ∧ c.isDigit ∧ d.isDigit then
        some (digitsVal [a, b, c, d], rest)
      else none
  | _ => none

/-- `%y`: exactly two digits, mapped to 2000–2068 / 1969–1999. -/
def pYear2 (cs : List Char) : Option (Nat × List Char) :=
  match cs with
  | a :: b :: rest =>
      if a.isDigit ∧ b.isDigit then
        let v := digitsVal [a, b]
        some (if v ≤ 68 then 2000 + v else 1900 + v, rest)
      else none
  | _ => none

/-- `%b`: a month abbreviation. -/
def pMonthName (cs : List Char) : Option (Nat × List Char) :=
  match cs with
  | a :: b :: c :: rest =>
      match monthAbbrevNum a b c with
      | some m => some (m, rest)
      | none => none
  | _ => none

/-- One-or-more whitespace (a literal space in a `strptime` format). -/
def pWs1 (cs : List Char) : Option (List Char) :=
  match cs with
  | c :: rest => if c.isWhitespace then some (rest.dropWhile Char.isWhitespace) else none
  | [] => none

/-- A literal character of a `strptime` format. -/
def pLit (ch : Char) (cs : List Char) : Option (List Char) :=
  match cs with
  | c :: rest => if c = ch then some rest else none
  | [] => none

/-- `"%d%b,%Y"`. -/
def pFmtDayMonComma (cs : List Char) : Option (Nat × Nat × Nat) :=
  pTwoOrOneDigit 31 cs fun d r1 =>
    match pMonthName r1 with
    | none => none
    | some mr =>
        match pLit ',' mr.2 with
        | none => none
        | some r3 =>
            match pYear4 r3 with
            | some yr => if yr.2 = [] then some (yr.1, mr.1, d) else none
            | none => none

/-- `"%d %b %y"`. -/
def pFmtDayMonY2 (cs : List Char) : Option (Nat × Nat × Nat) :=
  pTwoOrOneDigit 31 cs fun d r1 =>
    match pWs1 r1 with
    | none => none
    | some r2 =>
        match pMonthName r2 with
        | none => none
        | some mr =>
            match pWs1 mr.2 with
            | none => none
            | some r4 =>
                match pYear2 r4 with
                | some yr => if yr.2 = [] then some (yr.1, mr.1, d) else none
                | none => none

/-- `"%d-%m-%Y"`. -/
def pFmtDayNumMonth (cs : List Char) : Option (Nat × Nat × Nat) :=
  pTwoOrOneDigit 31 cs fun d r1 =>
    match pLit '-' r1 with
    | none => none
    | some r2 =>
        pTwoOrOneDigit 12 r2 fun m r3 =>
          match pLit '-' r3 with
          | none => none
          | some r4 =>
              match pYear4 r4 with
              | some yr => if yr.2 = [] then some (yr.1, m, d) else none
              | none => none

/-- `"%b %d, %Y"`. -/
def pFmtMonDay (cs : List Char) : Option (Nat × Nat × Nat) :=
  match pMonthName cs with
  | none => none
  | some mr =>
      match pWs1 mr.2 with
      | none => none
      | some r2 =>
          pTwoOrOneDigit 31 r2 fun d r3 =>
            match pLit ',' r3 with
            | none => none
            | some r4 =>
                match pWs1 r4 with
                | none => none
                | some r5 =>
                    match pYear4 r5 with
                    | some yr => if yr.2 = [] then some (yr.1, mr.1, d) else none
                    | none => none

/-- `"%d %b %Y"`. -/
def pFmtDayMonY4 (cs : List Char) : Option (Nat × Nat × Nat) :=
  pTwoOrOneDigit 31 cs fun d r1 =>
    match pWs1 r1 with
    | none => none
    | some r2 =>
        match pMonthName r2 with
        | none => none
        | some mr =>
            match pWs1 mr.2 with
            | none => none
            | some r4 =>
                match pYear4 r4 with
                | some yr => if yr.2 = [] then some (yr.1, mr.1, d) else none
                | none => none

/-- `datetime.fromisoformat`: exactly `YYYY-MM-DD`. -/
def pFmtIso (cs : List Char) : Option (Nat × Nat × Nat) :=
  match pYear4 cs with
  | none => none
  | some yr =>
      match yr.2 with
      | s1 :: m1 :: m2 :: s2 :: d1 :: d2 :: rest =>
          if s1 = '-' ∧ m1.isDigit ∧ m2.isDigit ∧ s2 = '-' ∧ d1.isDigit ∧ d2.isDigit ∧ rest = [] then
            some (yr.1, digitsVal [m1, m2], digitsVal [d1, d2])
          else none
      | _ => none

/-- Gregorian leap year. -/
def isLeapYear (y : Nat) : Bool :=
  y % 4 = 0 ∧ (y % 100 ≠ 0 ∨ y % 400 = 0)

/-- Days in a month. -/
def daysInMonth (y m : Nat) : Nat :=
  if m = 2 then (if isLeapYear y then 29 else 28)
  else if m = 4 ∨ m = 6 ∨ m = 9 ∨ m = 11 then 30
  else 31

/-- `datetime(y, m, d)` constructor validity. -/
def validYmd (y m d : Nat) : Bool :=
  1 ≤ y ∧ y ≤ 9999 ∧ 1 ≤ m ∧ m ≤ 12 ∧ 1 ≤ d ∧ d ≤ daysInMonth y m

/-- Zero-padded 2-digit rendering. -/
def pad2 (n : Nat) : String :=
  if n < 10 then "0" ++ toString n else toString n

/-- Zero-padded 4-digit rendering. -/
def pad4 (n : Nat) : String :=
  if n < 10 then "000" ++ toString n
  else if n < 100 then "00" ++ toString n
  else if n < 1000 then "0" ++ toString n
  else toString n

/-- `date(y, m, d).isoformat()`. -/
def isoOfYmd (y m d : Nat) : String :=
  pad4 y ++ "-" ++ pad2 m ++ "-" ++ pad2 d

/-- Run one format: a parse that yields an invalid calendar date raises
inside `strptime`/`datetime` and is caught, so it falls through. -/
def tryDateFmt (p : List Char → Option (Nat × Nat × Nat)) (cs : List Char) : Option String :=
  match p cs with
  | some ymd => if validYmd ymd.1 ymd.2.1 ymd.2.2 then some (isoOfYmd ymd.1 ymd.2.1 ymd.2.2) else none
  | none => none

/-- `normalize_date`: falsy input → `None`; otherwise strip and try the
five formats in order, then the ISO fallback; `None` if all fail. -/
def normalize_date (date_str : Option String) : Option String :=
  match date_str with
  | none => none
  | some s0 =>
      if s0 = "" then none
      else
        let cs := trimChars s0.toList
        ((((((tryDateFmt pFmtDayMonComma cs).orElse fun _ =>
            tryDateFmt pFmtDayMonY2 cs).orElse fun _ =>
            tryDateFmt pFmtDayNumMonth cs).orElse fun _ =>
            tryDateFmt pFmtMonDay cs).orElse fun _ =>
            tryDateFmt pFmtDayMonY4 cs).orElse fun _ =>
            tryDateFmt pFmtIso cs)

/-- A raw extractor row as consumed by `to_records` (`row.get(...)`
lookups). -/
structure RawRow where
  date : Option String
  transaction_details : Option String
  type : Option String
  amount : PyVal
deriving DecidableEq, Repr

/-- A materialized `NormalizedTransaction` record. -/
structure NormRecord where
  date : Option String
  transaction_details : String
  transaction_type : String
  amount : ℚ
  verification_status : String
  statement_type : Option String
  user_id : Option String
deriving DecidableEq, Repr

/-- `to_records`: one record per raw row; `user_id` is attached only
when truthy. -/
def to_records (data : List RawRow) (statement_type : Option String)
    (user_id : Option String) : List NormRecord :=
  data.map fun row =>
    { date := normalize_date row.date
      transaction_details := clean_details row.transaction_details
      transaction_type := normalize_type row.type row.transaction_details
      amount := normalize_amount row.amount
      verification_status := "unverified"
      statement_type := statement_type
      user_id := match user_id with
        | some u => if u = "" then none else some u
        | none => none }

/-! ### Data model of the orchestrator (`ai_agent.py`)

A fetched transaction row, as selected by `fetch_unverified`
(`id,date,transaction_details,transaction_type,amount,...`). -/
structure Txn where
  id : Nat
  date : String
  transaction_details : String
  transaction_type : String
  amount : ℚ
deriving DecidableEq, Repr

/-- A JSON value found under the oracle's `tags`/`behavioral_tags` keys:
either a list of strings or something that is not a list (the code
coerces the latter to `[]` with `isinstance(bt, list)`). -/
inductive TagsVal where
  | list (xs : List String)
  | notList
deriving DecidableEq, Repr

/-- One well-formed oracle result object: a JSON dict that has an `id`
key.  Every other key is optional, mirroring the `o.get(...)` lookups in
`tag_with_gemini`. -/
structure OracleEntry where
  id : Nat
  category : Option String
  tags : Option TagsVal
  behavioral_tags : Option TagsVal
  confidence : Option ℚ
  requires_human_verification : Option Bool
deriving DecidableEq, Repr

/-- One element of the oracle's response array: either junk (a non-dict
value, or a dict without an `id` key — both are dropped by the
`results_map` comprehension) or a dict with an `id`. -/
inductive OracleItem where
  | junk
  | entry (e : OracleEntry)
deriving DecidableEq, Repr

/-- `results_map = {o.get("id"): o for o in out if isinstance(o, dict) and "id" in o}`:
a dict keyed by id in which a later entry overrides an earlier one. -/
def results_map : List OracleItem → Nat → Option OracleEntry
  | [], _ => none
  | OracleItem.junk :: rest, i => results_map rest i
  | OracleItem.entry e :: rest, i =>
      match results_map rest i with
      | some e2 => some e2
      | none => if e.id = i then some e else none

/-- A merged classification result, as appended to `state["results"]`. -/
structure MergedResult where
  id : Nat
  date : String
  transaction_details : String
  amount : ℚ
  transaction_type : String
  category : String
  tags : List String
  confidence : ℚ
  verification_status : String
  requires_human_verification : Bool
deriving DecidableEq, Repr

/-- Merge branch for a transaction whose id has no matching oracle
result (`if not o:` in `tag_with_gemini`). -/
def mergeMissing (t : Txn) : MergedResult :=
  { id := t.id
    date := t.date
    transaction_details := t.transaction_details
    amount := t.amount
    transaction_type := t.transaction_type
    category := "Other"
    tags := []
    confidence := 0
    verification_status := "required_human_verification"
    requires_human_verification := true }

/-- Merge branch for a matched oracle result: `c = float(o.get("confidence", 0.0))`,
`bt = o.get("behavioral_tags", o.get("tags", []))`,
`req_human = bool(o.get("requires_human_verification", False))`, then the
confidence/verification gate. -/
def mergeMatched (threshold : ℚ) (t : Txn) (o : OracleEntry) : MergedResult :=
  let c : ℚ := o.confidence.getD 0
  let bt : TagsVal := o.behavioral_tags.getD (o.tags.getD (TagsVal.list []))
  let req_human : Bool := o.requires_human_verification.getD false
  let v_status : String :=
    if threshold ≤ c ∧ req_human = false then "ai_verified"
    else "required_human_verification"
  { id := t.id
    date := t.date
    transaction_details := t.transaction_details
    amount := t.amount
    transaction_type := t.transaction_type
    category := o.category.getD "Other"
    tags := match bt with | TagsVal.list xs => xs | TagsVal.notList => []
    confidence := c
    verification_status := v_status
    requires_human_verification := v_status = "required_human_verification" }

/-- `tag_with_gemini`'s merge loop: one merged entry per fetched
transaction, in batch order.  (The early return on an empty batch also
yields `[]` here.) -/
def tag_with_gemini (threshold : ℚ) (txs : List Txn) (out : List OracleItem) :
    List MergedResult :=
  txs.map fun t =>
    match results_map out t.id with
    | none => mergeMissing t
    | some o => mergeMatched threshold t o

/-- `router`: returns the `(state["path"], next-node)` pair.  The batch
goes to `behavioral_analysis` only when the result list is non-empty and
`all((r.get("confidence", 0.0) >= th) and (r.get("verification_status") == "ai_verified") ...)`. -/
def router (threshold : ℚ) (res : List MergedResult) : String × String :=
  if res.isEmpty then ("B", "mark_needs_verification")
  else
    let all_high := res.all fun r =>
      decide (threshold ≤ r.confidence) && (r.verification_status == "ai_verified")
    if all_high then ("A", "behavioral_analysis") else ("B", "mark_needs_verification")

/-- The per-transaction `update` payload issued by `persist_results`. -/
structure PersistedUpdate where
  id : Nat
  category : String
  tags : List String
  verification_status : String
deriving DecidableEq, Repr

/-- The status string `persist_results` derives for one result:
`"ai_verified" if not bool(r.get("requires_human_verification")) else "required_human_verification"`. -/
def persistStatus (r : MergedResult) : String :=
  if r.requires_human_verification = false then "ai_verified"
  else "required_human_verification"

/-- The `update` payload for one result row. -/
def persistUpdate (r : MergedResult) : PersistedUpdate :=
  { id := r.id
    category := r.category
    tags := r.tags
    verification_status := persistStatus r }

/-- `persist_results`, with the store modelled by the list of updates it
applied and a flag recording whether an exception aborted the loop.
`failsOn` says which ids' `update(...).execute()` raises.  The single
`try` in the source wraps the whole `for` loop, so the first failure
ends processing; the `except` only logs. -/
def persist_results (failsOn : Nat → Bool) : List MergedResult → List PersistedUpdate × Bool
  | [] => ([], false)
  | r :: rs =>
      if failsOn r.id then ([], true)
      else
        let rest := persist_results failsOn rs
        (persistUpdate r :: rest.1, rest.2)

/-- The dictionary `run_agent` returns (after fetching `txs` and getting
oracle response `out`): only flagged results are counted and listed. -/
structure AgentReturn where
  count : Nat
  path : String
  flagged_count : Nat
  results : List MergedResult
deriving DecidableEq, Repr

/-- `run_agent`'s result construction: `res_all = final["results"]`,
`flagged = [r for r in res_all if r.get("requires_human_verification")]`. -/
def run_agent (txs : List Txn) (out : List OracleItem) (threshold : ℚ := 85/100) :
    AgentReturn :=
  let res_all := tag_with_gemini threshold txs out
  let path := (router threshold res_all).1
  let flagged := res_all.filter fun r => r.requires_human_verification
  { count := flagged.length
    path := path
    flagged_count := flagged.length
    results := flagged }

/-! ### `pdf_processor.py`: the statement extractors -/

/-- A raw transaction tuple as appended by every extractor. -/
structure RawTxn where
  date : String
  transaction_details : String
  amount : ℚ
  type : String
deriving DecidableEq, Repr

/-- `parse_amount`: falsy input → `0.0`; strip everything but digits,
dots and minus signs; `float` of the remainder, `0.0` on
`ValueError`. -/
def parse_amount (amount_str : String) : ℚ :=
  if amount_str = "" then 0
  else
    let cleaned := String.mk (amount_str.toList.filter fun c => c.isDigit ∨ c = '.' ∨ c = '-')
    (pyFloatOfString cleaned).getD 0

/-- A `pdfplumber` table cell (`None` or a string). -/
abbrev PdfCell := Option String

/-- A table row. -/
abbrev PdfRow := List PdfCell

/-- A `pdfplumber` table. -/
abbrev PdfTable := List PdfRow

/-- Python `str(cell)`. -/
def cellStr : PdfCell → String
  | none => "None"
  | some s => s

/-- Python truthiness of a cell. -/
def truthyCell : PdfCell → Bool
  | none => false
  | some s => s ≠ ""

/-- Tail of the SBI amount pattern `[\d,]+(?:\.\d+)?\s*[CD]` after the
leading digit/comma run: an optional `.digits`, optional whitespace,
then `C` or `D`.  (The character classes of consecutive pattern pieces
are disjoint, so this greedy scan is exactly the regex search.) -/
def sbiPatAfterDigits (cs : List Char) : Bool :=
  let cs2 := match cs with
    | '.' :: r => if (r.takeWhile Char.isDigit).isEmpty then cs else r.dropWhile Char.isDigit
    | _ => cs
  match cs2.dropWhile Char.isWhitespace with
  | 'C' :: _ => true
  | 'D' :: _ => true
  | _ => false

/-- `re.search` of the SBI amount pattern: try every start position. -/
def sbiSearchPat : List Char → Bool
  | [] => false
  | c :: rest =>
      (if c.isDigit ∨ c = ',' then
        sbiPatAfterDigits ((c :: rest).dropWhile fun x => x.isDigit ∨ x = ',')
      else false) || sbiSearchPat rest

/-- `is_sbi_transactions_table`: at least two rows, `Date` and `Amount`
somewhere in the header, and some data row whose third cell matches the
amount pattern. -/
def is_sbi_transactions_table (table : PdfTable) : Bool :=
  match table with
  | [] => false
  | _ :: [] => false
  | header :: rows =>
      let header_texts := header.map fun c => match c with | none => "" | some s => s
      let has_date := header_texts.any fun h => pyIn "Date" h
      let has_amount := header_texts.any fun h => pyIn "Amount" h
      if ¬ (has_date ∧ has_amount) then false
      else rows.any fun row =>
        decide (3 ≤ row.length) && truthyCell (row.getD 2 none) &&
          sbiSearchPat (cellStr (row.getD 2 none)).toList

/-- One SBI data row: newline-split the first three cells, zip up to the
shortest, keep entries with a positive parsed amount; `C`/`D` in the raw
amount text decides the direction. -/
def sbiRowTxns (row : PdfRow) : List RawTxn :=
  if 3 ≤ row.length ∧ truthyCell (row.getD 0 none) ∧ truthyCell (row.getD 1 none)
      ∧ truthyCell (row.getD 2 none) then
    let dates := pySplitOnChar (Char.ofNat 10) (cellStr (row.getD 0 none))
    let details := pySplitOnChar (Char.ofNat 10) (cellStr (row.getD 1 none))
    let amounts := pySplitOnChar (Char.ofNat 10) (cellStr (row.getD 2 none))
    let count := min (min dates.length details.length) amounts.length
    (List.range count).filterMap fun i =>
      let amt_raw := amounts.getD i ""
      let t_type := if containsChar amt_raw 'C' then "Credit"
                    else if containsChar amt_raw 'D' then "Debit" else "Debit"
      let amt_val := parse_amount amt_raw
      if 0 < amt_val then
        some { date := dates.getD i "", transaction_details := details.getD i "",
               amount := amt_val, type := t_type }
      else none
  else []

/-- One table of `extract_sbi_statement`.  The row loop of the source is
indented *inside* the `if 'Date' in str(table[0][0])` block, so a
validated table whose first header cell lacks `Date` contributes
nothing. -/
def sbiTable (table : PdfTable) : List RawTxn :=
  if table.isEmpty then []
  else if ¬ is_sbi_transactions_table table then []
  else if (table.headD []) ≠ [] ∧ pyIn "Date" (cellStr ((table.headD []).headD none)) then
    (table.drop 1).foldr (fun row acc => sbiRowTxns row ++ acc) []
  else []

/-- `extract_sbi_statement` over the pages' table lists. -/
def extract_sbi_statement (pages : List (List PdfTable)) : List RawTxn :=
  pages.foldr (fun tables acc => tables.foldr (fun t a => sbiTable t ++ a) [] ++ acc) []

/-- The `elif credit and credit.strip():` arm of the Axis row. -/
def axisCreditPart (credit : PdfCell) : ℚ × String :=
  match credit with
  | some cs => if cs ≠ "" ∧ pyTrim cs ≠ "" then (parse_amount cs, "Credit") else (0, "Debit")
  | none => (0, "Debit")

/-- One Axis data row: at least five cells, a truthy date cell, amount
from the debit column else the credit column, emitted only when
positive. -/
def axisRowTxn (row : PdfRow) : Option RawTxn :=
  if row.length < 5 then none
  else
    let date_cell := row.getD 0 none
    if ¬ truthyCell date_cell then none
    else
      let details := match row.getD 2 none with
        | some s => if s ≠ "" then pyReplace s "\n" " " else ""
        | none => ""
      let amtType : ℚ × String :=
        match row.getD 3 none with
        | some ds => if ds ≠ "" ∧ pyTrim ds ≠ "" then (parse_amount ds, "Debit")
                     else axisCreditPart (row.getD 4 none)
        | none => axisCreditPart (row.getD 4 none)
      if 0 < amtType.1 then
        some { date := date_cell.getD "", transaction_details := details,
               amount := amtType.1, type := amtType.2 }
      else none

/-- One table of `extract_axis_statement`: skip the header row when its
first cell mentions `Tran Date`. -/
def axisTable (table : PdfTable) : List RawTxn :=
  if table.isEmpty then []
  else
    let start : Nat :=
      if (table.headD []) ≠ [] ∧ pyIn "Tran Date" (cellStr ((table.headD []).headD none))
      then 1 else 0
    (table.drop start).filterMap axisRowTxn

/-- `extract_axis_statement` over the pages' table lists. -/
def extract_axis_statement (pages : List (List PdfTable)) : List RawTxn :=
  pages.foldr (fun tables acc => tables.foldr (fun t a => axisTable t ++ a) [] ++ acc) []

/-! #### The generic fallback extractor -/

/-- `\w` of the generic date pattern's `\b` boundaries. -/
def isWordChar (c : Char) : Bool := c.isAlphanum ∨ c = '_'

/-- Exactly `n` digits. -/
def takeNDigits : Nat → List Char → Option (List Char)
  | 0, cs => some cs
  | _ + 1, [] => none
  | n + 1, c :: rest => if c.isDigit then takeNDigits n rest else none

/-- A digit group with the counts a greedy regex quantifier would try,
in order, backtracking into the continuation. -/
def gDigits (counts : List Nat) (cs : List Char) (k : Nat → List Char → Option Nat) : Option Nat :=
  match counts with
  | [] => none
  | n :: ns =>
      (match takeNDigits n cs with
       | some rest => k n rest
       | none => none).orElse fun _ => gDigits ns cs k

/-- A dash-or-slash date separator. -/
def gSep (cs : List Char) (k : List Char → Option Nat) : Option Nat :=
  match cs with
  | c :: rest => if c = '-' ∨ c = '/' then k rest else none
  | [] => none

/-- `\s+`, greedy (the following token class is disjoint from
whitespace, so maximal munch is exact). -/
def gWs1 (cs : List Char) (k : Nat → List Char → Option Nat) : Option Nat :=
  match cs with
  | c :: rest =>
      if c.isWhitespace then
        k (1 + (rest.takeWhile Char.isWhitespace).length) (rest.dropWhile Char.isWhitespace)
      else none
  | [] => none

/-- The trailing `\b` after a digit. -/
def trailBoundaryOk : List Char → Bool
  | [] => true
  | c :: _ => ¬ isWordChar c

/-- First alternative of the date pattern: day, dash-or-slash, month, dash-or-slash, 2-to-4-digit year. -/
def gAlt1 (cs : List Char) : Option Nat :=
  gDigits [2, 1] cs fun n1 r1 =>
    gSep r1 fun r2 =>
      gDigits [2, 1] r2 fun n2 r3 =>
        gSep r3 fun r4 =>
          gDigits [4, 3, 2] r4 fun n3 r5 =>
            if trailBoundaryOk r5 then some (n1 + 1 + n2 + 1 + n3) else none

/-- Alternative `\d{1,2}\s+[A-Za-z]{3}\s+\d{2,4}`. -/
def gAlt2 (cs : List Char) : Option Nat :=
  gDigits [2, 1] cs fun n1 r1 =>
    gWs1 r1 fun w1 r2 =>
      match r2 with
      | a :: b :: c :: r3 =>
          if a.isAlpha ∧ b.isAlpha ∧ c.isAlpha then
            gWs1 r3 fun w2 r4 =>
              gDigits [4, 3, 2] r4 fun n2 r5 =>
                if trailBoundaryOk r5 then some (n1 + w1 + 3 + w2 + n2) else none
          else none
      | _ => none

/-- Third alternative of the date pattern: 4-digit year, dash-or-slash, month, dash-or-slash, day. -/
def gAlt3 (cs : List Char) : Option Nat :=
  gDigits [4] cs fun _ r1 =>
    gSep r1 fun r2 =>
      gDigits [2, 1] r2 fun n2 r3 =>
        gSep r3 fun r4 =>
          gDigits [2, 1] r4 fun n3 r5 =>
            if trailBoundaryOk r5 then some (4 + 1 + n2 + 1 + n3) else none

/-- Match of the generic date pattern at one position (`prev` is the
preceding character, for the leading `\b`; every alternative starts
with a digit, a word char). -/
def gMatchAt (prev : Option Char) (cs : List Char) : Option Nat :=
  let startOk := match prev with | none => true | some p => ¬ isWordChar p
  if startOk then
    ((gAlt1 cs).orElse fun _ => (gAlt2 cs).orElse fun _ => gAlt3 cs)
  else none

/-- `re.search` of the generic date pattern: leftmost match, returning
its start index and length. -/
def gSearchAux (prev : Option Char) (idx : Nat) : List Char → Option (Nat × Nat)
  | [] => none
  | c :: rest =>
      match gMatchAt prev (c :: rest) with
      | some len => some (idx, len)
      | none => gSearchAux (some c) (idx + 1) rest

/-- Search from the start of a line. -/
def gSearch (cs : List Char) : Option (Nat × Nat) :=
  gSearchAux none 0 cs

/-- `re.sub(r'[^\d.]', '', part)`. -/
def cleanDigitsDot (p : String) : String :=
  String.mk (p.toList.filter fun c => c.isDigit ∨ c = '.')

/-- Full match of `^\d+(\.\d{1,2})?$`. -/
def genericAmtPat (cs : List Char) : Bool :=
  let ds := cs.takeWhile Char.isDigit
  let r := cs.dropWhile Char.isDigit
  if ds.isEmpty then false
  else match r with
    | [] => true
    | '.' :: r2 =>
        let fs := r2.takeWhile Char.isDigit
        decide ((fs.length = 1 ∨ fs.length = 2) ∧ r2.dropWhile Char.isDigit = [])
    | _ => false

/-- The right-to-left amount scan of the generic extractor (`parts` is
the reversed whitespace token list): skip tokens that clean to nothing
or fail the numeric pattern; treat bare 1901–2099 integers as years
unless the original token carries a dot. -/
def genericAmountScan : List String → ℚ
  | [] => 0
  | p :: rest =>
      let clean := cleanDigitsDot p
      if clean = "" then genericAmountScan rest
      else if genericAmtPat clean.toList then
        let val := (pyFloatOfString clean).getD 0
        if 1900 < val ∧ val < 2100 ∧ val.den = 1 then
          if containsChar p '.' then val else genericAmountScan rest
        else val
      else genericAmountScan rest

/-- One line of the generic extractor. -/
def genericLineTxn (line : String) : Option RawTxn :=
  let cs := line.toList
  match gSearch cs with
  | none => none
  | some im =>
      let parts := pySplitWs line
      let t_type := if pyIn "Cr" line ∨ pyIn "Credit" line ∨ pyIn "Received" line
                    then "Credit" else "Debit"
      let amount := genericAmountScan parts.reverse
      if 0 < amount then
        let date_str := String.mk ((cs.drop im.1).take im.2)
        let details := pyTrim (pyReplace line date_str "")
        some { date := date_str, transaction_details := details,
               amount := amount, type := t_type }
      else none

/-- `extract_generic_statement` over the pages' extracted text. -/
def extract_generic_statement (pages : List (Option String)) : List RawTxn :=
  pages.foldr
    (fun pg acc =>
      (match pg with
       | none => []
       | some text =>
           if text = "" then []
           else (pySplitOnChar (Char.ofNat 10) text).filterMap genericLineTxn) ++ acc)
    []

/-! #### The GPay extractor -/

/-- Match of the GPay date pattern `\d{2}[A-Za-z]{3},\d{4}` at one
position: the ten matched characters. -/
def gpayDateAt : List Char → Option (List Char)
  | c1 :: c2 :: a1 :: a2 :: a3 :: cm :: y1 :: y2 :: y3 :: y4 :: _ =>
      if c1.isDigit ∧ c2.isDigit ∧ a1.isAlpha ∧ a2.isAlpha ∧ a3.isAlpha ∧ cm = ','
          ∧ y1.isDigit ∧ y2.isDigit ∧ y3.isDigit ∧ y4.isDigit then
        some [c1, c2, a1, a2, a3, cm, y1, y2, y3, y4]
      else none
  | _ => none

/-- `re.search` of the GPay date pattern, leftmost match. -/
def gpaySearchDate : List Char → Option String
  | [] => none
  | c :: rest =>
      match gpayDateAt (c :: rest) with
      | some m => some (String.mk m)
      | none => gpaySearchDate rest

/-- `re.sub` of the GPay date pattern with `""`: remove every
non-overlapping match (fuel keeps the recursion structural). -/
def gpaySubDateFuel : Nat → List Char → List Char
  | 0, cs => cs
  | _ + 1, [] => []
  | fuel + 1, c :: rest =>
      match gpayDateAt (c :: rest) with
      | some _ => gpaySubDateFuel fuel (rest.drop 9)
      | none => c :: gpaySubDateFuel fuel rest

/-- `re.sub` of the GPay date pattern on a whole char list. -/
def gpaySubDate (cs : List Char) : List Char :=
  gpaySubDateFuel cs.length cs

/-- One line of the GPay extractor, threading `current_date` and the
emitted transactions; `parts[1].split()[0]` raises `IndexError` when the
text after `₹` has no whitespace token (`Except.error`). -/
def gpayStep (st : Option String × List RawTxn) (line : String) :
    Except Unit (Option String × List RawTxn) :=
  let cd : Option String :=
    match gpaySearchDate line.toList with
    | some d => some d
    | none => st.1
  match cd with
  | some d =>
      if containsChar line '₹' then
        let parts := pySplitOnChar '₹' line
        if 2 ≤ parts.length then
          let details0 := pyTrim (parts.getD 0 "")
          let details1 := pyTrim (pyReplace details0 d "")
          let details := pyTrim (String.mk (gpaySubDate details1.toList))
          match pySplitWs (parts.getD 1 "") with
          | [] => Except.error ()
          | amount_str :: _ =>
              let t_type := if pyIn "Received" details then "Credit" else "Debit"
              let txn : RawTxn :=
                { date := d, transaction_details := details,
                  amount := parse_amount amount_str, type := t_type }
              Except.ok (some d, st.2 ++ [txn])
        else Except.ok (some d, st.2)
      else Except.ok (some d, st.2)
  | none => Except.ok (none, st.2)

/-- `extract_gpay_statement` over the pages' extracted text:
`current_date` resets per page, the transaction list accumulates across
pages. -/
def extract_gpay_statement (pages : List (Option String)) : Except Unit (List RawTxn) :=
  pages.foldlM
    (fun acc pg =>
      match pg with
      | none => Except.ok acc
      | some text =>
          if text = "" then Except.ok acc
          else do
            let st ← (pySplitOnChar (Char.ofNat 10) text).foldlM gpayStep (none, acc)
            Except.ok st.2)
    []

/-- The oracle entry used in the all-or-nothing routing scenario:
confidence `0.90`, `requires_human_verification = false`. -/
def oracle09 (t : Txn) : OracleEntry :=
  { id := t.id
    category := some "Groceries"
    tags := some (TagsVal.list [])
    behavioral_tags := none
    confidence := some (9/10)
    requires_human_verification := some false }

/-- `oracle09` with the confidence changed to `0.50` (the single lowered
entry of the routing scenario). -/
def oracle05 (t : Txn) : OracleEntry :=
  { id := t.id
    category := some "Groceries"
    tags := some (TagsVal.list [])
    behavioral_tags := none
    confidence := some (1/2)
    requires_human_verification := some false }

end SmartWallet

namespace SmartWallet

/-! ### Lemmas about the classification orchestrator -/

theorem results_map_eq_none (ps : List (Txn × OracleEntry)) (i : Nat)
    (h : ∀ p ∈ ps, p.2.id ≠ i) :
    results_map (ps.map fun q => OracleItem.entry q.2) i = none := by
  induction ps with
  | nil => rfl
  | cons p ps ih =>
    have hrest := ih (fun q hq => h q (List.mem_cons_of_mem _ hq))
    simp only [List.map_cons, results_map, hrest]
    simp [h p (List.mem_cons_self _ _)]

theorem results_map_pairs (ps : List (Txn × OracleEntry))
    (hid : ∀ p ∈ ps, p.2.id = p.1.id)
    (hnd : (ps.map fun p => p.1.id).Nodup) :
    ∀ p ∈ ps, results_map (ps.map fun q => OracleItem.entry q.2) p.1.id = some p.2 := by
  induction ps with
  | nil => intro p hp; cases hp
  | cons q ps ih =>
    intro p hp
    simp only [List.map_cons, List.nodup_cons] at hnd
    rcases List.mem_cons.mp hp with rfl | hp'
    · have hnone : results_map (ps.map fun q => OracleItem.entry q.2) p.1.id = none := by
        apply results_map_eq_none
        intro r hr
        rw [hid r (List.mem_cons_of_mem _ hr)]
        intro hcontra
        exact hnd.1 (List.mem_map.mpr ⟨r, hr, hcontra⟩)
      simp only [List.map_cons, results_map, hnone]
      simp [hid p (List.mem_cons_self _ _)]
    · have := ih (fun r hr => hid r (List.mem_cons_of_mem _ hr)) hnd.2 p hp'
      simp only [List.map_cons, results_map, this]

theorem tag_with_gemini_pairs (thr : ℚ) (ps : List (Txn × OracleEntry))
    (hid : ∀ p ∈ ps, p.2.id = p.1.id)
    (hnd : (ps.map fun p => p.1.id).Nodup) :
    tag_with_gemini thr (ps.map fun p => p.1) (ps.map fun q => OracleItem.entry q.2) =
      ps.map fun p => mergeMatched thr p.1 p.2 := by
  unfold tag_with_gemini
  rw [List.map_map]
  apply List.map_congr_left
  intro p hp
  simp only [Function.comp_apply, results_map_pairs ps hid hnd p hp]

theorem mergeMatched_status_iff (thr : ℚ) (t : Txn) (o : OracleEntry) :
    (mergeMatched thr t o).verification_status = "ai_verified" ↔
      (thr ≤ o.confidence.getD 0 ∧ o.requires_human_verification.getD false = false) := by
  by_cases h : thr ≤ o.confidence.getD 0 ∧ o.requires_human_verification.getD false = false
  · simp [mergeMatched, h]
  · simp only [mergeMatched, if_neg h]
    constructor
    · intro hcontra; exact absurd hcontra (by decide)
    · intro hcontra; exact absurd hcontra h

/-! ### Claim theorems: routing, merge and return value -/

/-- Claim C1: the router sends the batch to `behavioral_analysis` iff
the merged result list is non-empty, every entry's status is
`ai_verified` and every entry's confidence meets the threshold; an
all-0.90-confidence batch (threshold 0.85, no human-verification flags)
routes to `behavioral_analysis`, lowering exactly one entry's confidence
to 0.50 routes the whole batch to `mark_needs_verification`, and an
empty merged list routes to `mark_needs_verification`. -/
theorem c1_all_or_nothing_routing :
    (∀ (thr : ℚ) (res : List MergedResult),
        (router thr res).2 = "behavioral_analysis" ↔
          res ≠ [] ∧ ∀ r ∈ res, thr ≤ r.confidence ∧ r.verification_status = "ai_verified")
    ∧ (∀ thr : ℚ, router thr [] = ("B", "mark_needs_verification"))
    ∧ (∀ txs : List Txn, txs ≠ [] → (txs.map Txn.id).Nodup →
        (router (85/100) (tag_with_gemini (85/100) txs
          (txs.map fun t => OracleItem.entry (oracle09 t)))).2 = "behavioral_analysis")
    ∧ (∀ (pre post : List Txn) (tk : Txn), ((pre ++ tk :: post).map Txn.id).Nodup →
        (router (85/100) (tag_with_gemini (85/100) (pre ++ tk :: post)
          (pre.map (fun t => OracleItem.entry (oracle09 t)) ++
            OracleItem.entry (oracle05 tk) ::
              post.map (fun t => OracleItem.entry (oracle09 t))))).2
          = "mark_needs_verification") := by
  have hpairs : ∀ (txs : List Txn) (f : Txn → OracleEntry),
      (∀ t, (f t).id = t.id) → (txs.map Txn.id).Nodup →
      tag_with_gemini (85/100) txs (txs.map fun t => OracleItem.entry (f t)) =
        txs.map fun t => mergeMatched (85/100) t (f t) := by
    intro txs f hfid hnd
    have := tag_with_gemini_pairs (85/100) (txs.map fun t => (t, f t))
      (by intro p hp
          obtain ⟨t, _, rfl⟩ := List.mem_map.mp hp
          exact hfid t)
      (by simpa [List.map_map, Function.comp_def] using hnd)
    simpa [List.map_map, Function.comp_def] using this
  refine ⟨?_, ?_, ?_, ?_⟩
  · intro thr res
    unfold router
    by_cases hres : res.isEmpty
    · simp only [hres, if_true]
      constructor
      · intro h; exact absurd h (by decide)
      · intro h; exact absurd (List.isEmpty_iff.mp hres) h.1
    · simp only [hres, if_false]
      by_cases hall : res.all fun r =>
        decide (thr ≤ r.confidence) && (r.verification_status == "ai_verified")
      · simp only [hall, if_true]
        constructor
        · intro _
          refine ⟨fun hnil => by simp [hnil] at hres, ?_⟩
          intro r hr
          have := List.all_eq_true.mp hall r hr
          simp only [Bool.and_eq_true, decide_eq_true_eq, beq_iff_eq] at this
          exact this
        · intro _; rfl
      · simp only [hall, if_false]
        constructor
        · intro h; exact absurd h (by decide)
        · intro h
          apply absurd _ hall
          rw [List.all_eq_true]
          intro r hr
          have := h.2 r hr
          simp only [Bool.and_eq_true, decide_eq_true_eq, beq_iff_eq]
          exact this
  · intro thr; rfl
  · intro txs hne hnd
    rw [hpairs txs oracle09 (fun t => rfl) hnd]
    unfold router
    have hempty : (txs.map fun t => mergeMatched (85/100) t (oracle09 t)).isEmpty = false := by
      cases txs with
      | nil => exact absurd rfl hne
      | cons a l => rfl
    simp only [hempty, if_false, Bool.false_eq_true]
    have hall : (txs.map fun t => mergeMatched (85/100) t (oracle09 t)).all (fun r =>
        decide ((85:ℚ)/100 ≤ r.confidence) && (r.verification_status == "ai_verified")) = true := by
      rw [List.all_eq_true]
      intro r hr
      obtain ⟨t, _, rfl⟩ := List.mem_map.mp hr
      have hst : (mergeMatched (85/100) t (oracle09 t)).verification_status = "ai_verified" := by
        rw [mergeMatched_status_iff]
        exact ⟨by norm_num [oracle09], by simp [oracle09]⟩
      have hc : (mergeMatched (85/100) t (oracle09 t)).confidence = 9/10 := by
        simp [mergeMatched, oracle09]
      rw [hst, hc]
      norm_num
    simp only [hall, if_true]
  · intro pre post tk hnd
    have hmaps : pre.map (fun t => OracleItem.entry (oracle09 t)) ++
        OracleItem.entry (oracle05 tk) :: post.map (fun t => OracleItem.entry (oracle09 t)) =
        (pre.map (fun t => (t, oracle09 t)) ++ (tk, oracle05 tk) ::
          post.map (fun t => (t, oracle09 t))).map fun q => OracleItem.entry q.2 := by
      simp [List.map_map, Function.comp_def]
    have htxs : pre ++ tk :: post =
        (pre.map (fun t => (t, oracle09 t)) ++ (tk, oracle05 tk) ::
          post.map (fun t => (t, oracle09 t))).map fun p => p.1 := by
      simp [List.map_map, Function.comp_def]
    rw [hmaps, htxs]
    rw [tag_with_gemini_pairs]
    · unfold router
      have hmem : mergeMatched (85/100) tk (oracle05 tk) ∈
          (pre.map (fun t => (t, oracle09 t)) ++ (tk, oracle05 tk) ::
            post.map (fun t => (t, oracle09 t))).map fun p => mergeMatched (85/100) p.1 p.2 :=
        List.mem_map.mpr ⟨(tk, oracle05 tk), by simp, rfl⟩
      have hempty : ((pre.map (fun t => (t, oracle09 t)) ++ (tk, oracle05 tk) ::
          post.map (fun t => (t, oracle09 t))).map fun p =>
            mergeMatched (85/100) p.1 p.2).isEmpty = false := by
        rw [List.isEmpty_eq_false_iff_exists_mem]
        exact ⟨_, hmem⟩
      simp only [hempty, if_false, Bool.false_eq_true]
      have hfail : ¬ (((pre.map (fun t => (t, oracle09 t)) ++ (tk, oracle05 tk) ::
          post.map (fun t => (t, oracle09 t))).map fun p =>
            mergeMatched (85/100) p.1 p.2).all fun r =>
              decide ((85:ℚ)/100 ≤ r.confidence) && (r.verification_status == "ai_verified")) := by
        intro hall
        have := List.all_eq_true.mp hall _ hmem
        have hc : (mergeMatched (85/100) tk (oracle05 tk)).confidence = 1/2 := by
          simp [mergeMatched, oracle05]
        rw [Bool.and_eq_true, decide_eq_true_eq, hc] at this
        norm_num at this
      rw [eq_false_of_ne_true (fun h => hfail h)]
      rfl
    · intro p hp
      rcases List.mem_append.mp hp with hl | hr
      · obtain ⟨t, _, rfl⟩ := List.mem_map.mp hl; rfl
      · rcases List.mem_cons.mp hr with rfl | hm
        · rfl
        · obtain ⟨t, _, rfl⟩ := List.mem_map.mp hm; rfl
    · have : ((pre.map (fun t => (t, oracle09 t)) ++ (tk, oracle05 tk) ::
          post.map (fun t => (t, oracle09 t))).map fun p => p.1.id) =
          (pre ++ tk :: post).map Txn.id := by
        simp [List.map_map, Function.comp_def]
      rw [this]
      exact hnd

/-- Witness for C1: a concrete one-element batch with confidence 0.90
routes to `behavioral_analysis`; with its confidence lowered to 0.50 the
batch routes to `mark_needs_verification`. -/
theorem c1_all_or_nothing_routing_witness :
    (router (85/100) (tag_with_gemini (85/100) [⟨1, "2025-11-01", "PaidtoBlinkit", "Debit", 425⟩]
      ([⟨1, "2025-11-01", "PaidtoBlinkit", "Debit", 425⟩].map fun t =>
        OracleItem.entry (oracle09 t)))).2 = "behavioral_analysis"
    ∧ (router (85/100) (tag_with_gemini (85/100)
        ([] ++ ⟨1, "2025-11-01", "PaidtoBlinkit", "Debit", 425⟩ :: [])
        (List.map (fun t => OracleItem.entry (oracle09 t)) [] ++
          OracleItem.entry (oracle05 ⟨1, "2025-11-01", "PaidtoBlinkit", "Debit", 425⟩) ::
            List.map (fun t => OracleItem.entry (oracle09 t)) []))).2
        = "mark_needs_verification" :=
  ⟨c1_all_or_nothing_routing.2.2.1 [⟨1, "2025-11-01", "PaidtoBlinkit", "Debit", 425⟩]
      (by decide) (by decide),
   c1_all_or_nothing_routing.2.2.2 [] [] ⟨1, "2025-11-01", "PaidtoBlinkit", "Debit", 425⟩
      (by decide)⟩

/-- Claim C2: a matched oracle result is recorded as `ai_verified` iff
its confidence meets the (caller-chosen) threshold and its
`requires_human_verification` flag is false; a true flag forces
`required_human_verification` regardless of confidence. -/
theorem c2_confidence_gate :
    ∀ (thr : ℚ) (txs : List Txn) (out : List OracleItem) (i : Nat)
      (hi : i < txs.length) (hm : i < (tag_with_gemini thr txs out).length)
      (o : OracleEntry),
      results_map out (txs[i]).id = some o →
      (((tag_with_gemini thr txs out)[i]).verification_status = "ai_verified" ↔
        (thr ≤ o.confidence.getD 0 ∧ o.requires_human_verification.getD false = false))
      ∧ (o.requires_human_verification.getD false = true →
          ((tag_with_gemini thr txs out)[i]).verification_status
            = "required_human_verification") := by
  intro thr txs out i hi hm o hmatch
  have helem : (tag_with_gemini thr txs out)[i] = mergeMatched thr (txs[i]) o := by
    simp only [tag_with_gemini, List.getElem_map, hmatch]
  rw [helem]
  refine ⟨mergeMatched_status_iff thr (txs[i]) o, ?_⟩
  intro hreq
  have hcond : ¬ (thr ≤ o.confidence.getD 0 ∧ o.requires_human_verification.getD false = false) := by
    intro hc
    rw [hreq] at hc
    exact absurd hc.2 (by decide)
  simp [mergeMatched, hcond]

/-- Witness for C2: with threshold 0.85, an oracle result with
confidence 0.90 and no human-verification flag is recorded as
`ai_verified`. -/
theorem c2_confidence_gate_witness :
    ((tag_with_gemini (85/100) [⟨7, "2025-11-01", "PaidtoBlinkit", "Debit", 425⟩]
      [OracleItem.entry ⟨7, some "Groceries", some (TagsVal.list ["essential"]), none,
        some (9/10), some false⟩]).get ⟨0, by decide⟩).verification_status = "ai_verified" :=
  (c2_confidence_gate (85/100) [⟨7, "2025-11-01", "PaidtoBlinkit", "Debit", 425⟩]
    [OracleItem.entry ⟨7, some "Groceries", some (TagsVal.list ["essential"]), none,
      some (9/10), some false⟩] 0 (by decide) (by decide)
    ⟨7, some "Groceries", some (TagsVal.list ["essential"]), none, some (9/10), some false⟩
    rfl).1.mpr ⟨by norm_num, rfl⟩

/-- Claim C3: the merge is total — one merged entry per fetched
transaction, in batch order, each carrying one of the two verification
statuses; a transaction whose id matches no oracle result gets category
`Other`, empty tags, confidence 0 and `required_human_verification`. -/
theorem c3_merge_total :
    ∀ (thr : ℚ) (txs : List Txn) (out : List OracleItem),
      (tag_with_gemini thr txs out).length = txs.length
      ∧ ∀ (i : Nat) (hi : i < txs.length) (hm : i < (tag_with_gemini thr txs out).length),
          ((tag_with_gemini thr txs out)[i]).id = (txs[i]).id
          ∧ (((tag_with_gemini thr txs out)[i]).verification_status = "ai_verified"
              ∨ ((tag_with_gemini thr txs out)[i]).verification_status
                  = "required_human_verification")
          ∧ (results_map out (txs[i]).id = none →
              ((tag_with_gemini thr txs out)[i]).category = "Other"
              ∧ ((tag_with_gemini thr txs out)[i]).tags = []
              ∧ ((tag_with_gemini thr txs out)[i]).confidence = 0
              ∧ ((tag_with_gemini thr txs out)[i]).verification_status
                  = "required_human_verification") := by
  intro thr txs out
  constructor
  · simp [tag_with_gemini]
  · intro i hi hm
    cases hmatch : results_map out (txs[i]).id with
    | none =>
      have helem : (tag_with_gemini thr txs out)[i] = mergeMissing (txs[i]) := by
        simp only [tag_with_gemini, List.getElem_map, hmatch]
      rw [helem]
      exact ⟨rfl, Or.inr rfl, fun _ => ⟨rfl, rfl, rfl, rfl⟩⟩
    | some o =>
      have helem : (tag_with_gemini thr txs out)[i] = mergeMatched thr (txs[i]) o := by
        simp only [tag_with_gemini, List.getElem_map, hmatch]
      rw [helem]
      refine ⟨rfl, ?_, ?_⟩
      · by_cases h : thr ≤ o.confidence.getD 0 ∧ o.requires_human_verification.getD false = false
        · exact Or.inl (by simp [mergeMatched, h])
        · exact Or.inr (by simp [mergeMatched, h])
      · intro hcontra
        exact Option.noConfusion hcontra

/-- Witness for C3: a two-transaction batch against an oracle response
covering only the first id (plus a junk element) merges to two entries,
the second of which is defaulted to manual review. -/
theorem c3_merge_total_witness :
    (tag_with_gemini (85/100)
        [⟨1, "d1", "a", "Debit", 10⟩, ⟨2, "d2", "b", "Credit", 20⟩]
        [OracleItem.junk,
         OracleItem.entry ⟨1, some "Fees", some (TagsVal.list []), none, some (88/100), some false⟩]).length = 2
    ∧ ((tag_with_gemini (85/100)
        [⟨1, "d1", "a", "Debit", 10⟩, ⟨2, "d2", "b", "Credit", 20⟩]
        [OracleItem.junk,
         OracleItem.entry ⟨1, some "Fees", some (TagsVal.list []), none, some (88/100), some false⟩]).get
        (Fin.mk 1 (by decide))).category = "Other" :=
  ⟨(c3_merge_total (85/100)
      [⟨1, "d1", "a", "Debit", 10⟩, ⟨2, "d2", "b", "Credit", 20⟩]
      [OracleItem.junk,
       OracleItem.entry ⟨1, some "Fees", some (TagsVal.list []), none, some (88/100), some false⟩]).1,
   ((((c3_merge_total (85/100)
      [⟨1, "d1", "a", "Debit", 10⟩, ⟨2, "d2", "b", "Credit", 20⟩]
      [OracleItem.junk,
       OracleItem.entry ⟨1, some "Fees", some (TagsVal.list []), none, some (88/100), some false⟩]).2
      1 (by decide) (by decide)).2.2 rfl).1)⟩

/-- Claim C8: every merged result satisfies
`requires_human_verification ↔ verification_status = "required_human_verification"`,
and the status `persist_results` derives from the flag equals the status
recorded at merge time. -/
theorem c8_flag_status_consistent :
    ∀ (thr : ℚ) (txs : List Txn) (out : List OracleItem) (r : MergedResult),
      r ∈ tag_with_gemini thr txs out →
      (r.requires_human_verification = true ↔
        r.verification_status = "required_human_verification")
      ∧ persistStatus r = r.verification_status := by
  intro thr txs out r hr
  obtain ⟨t, _, rfl⟩ := List.mem_map.mp hr
  cases hmatch : results_map out t.id with
  | none =>
    simp only [hmatch]
    exact ⟨by simp [mergeMissing], by simp [persistStatus, mergeMissing]⟩
  | some o =>
    simp only [hmatch]
    by_cases h : thr ≤ o.confidence.getD 0 ∧ o.requires_human_verification.getD false = false
    · constructor
      · simp [mergeMatched, h]
      · simp [persistStatus, mergeMatched, h]
    · constructor
      · simp [mergeMatched, h]
      · simp [persistStatus, mergeMatched, h]

/-- Witness for C8: the missing-result default of a concrete merge
satisfies the flag/status invariant. -/
theorem c8_flag_status_consistent_witness :
    ((mergeMissing ⟨3, "d", "x", "Debit", 5⟩).requires_human_verification = true ↔
      (mergeMissing ⟨3, "d", "x", "Debit", 5⟩).verification_status
        = "required_human_verification")
    ∧ persistStatus (mergeMissing ⟨3, "d", "x", "Debit", 5⟩)
        = (mergeMissing ⟨3, "d", "x", "Debit", 5⟩).verification_status :=
  c8_flag_status_consistent (85/100) [⟨3, "d", "x", "Debit", 5⟩] []
    (mergeMissing ⟨3, "d", "x", "Debit", 5⟩) (List.Mem.head _)

/-- Claim C10: `run_agent` reports only flagged transactions — `count`
and `flagged_count` both equal the number of merged results whose
`requires_human_verification` flag is true, `results` is exactly the
flagged sublist, and a fully auto-verified batch yields `count = 0` and
an empty `results` list. -/
theorem c10_returns_flagged_only :
    ∀ (txs : List Txn) (out : List OracleItem) (thr : ℚ),
      (run_agent txs out thr).count
          = ((tag_with_gemini thr txs out).filter fun r => r.requires_human_verification).length
      ∧ (run_agent txs out thr).flagged_count = (run_agent txs out thr).count
      ∧ (run_agent txs out thr).results
          = ((tag_with_gemini thr txs out).filter fun r => r.requires_human_verification)
      ∧ ((∀ r ∈ tag_with_gemini thr txs out, r.requires_human_verification = false) →
          (run_agent txs out thr).count = 0 ∧ (run_agent txs out thr).results = []) := by
  intro txs out thr
  refine ⟨rfl, rfl, rfl, ?_⟩
  intro hall
  have hfilter : ((tag_with_gemini thr txs out).filter fun r =>
      r.requires_human_verification) = [] := by
    rw [List.filter_eq_nil_iff]
    intro r hr
    simp [hall r hr]
  constructor
  · show ((tag_with_gemini thr txs out).filter fun r => r.requires_human_verification).length = 0
    rw [hfilter]
    rfl
  · show ((tag_with_gemini thr txs out).filter fun r => r.requires_human_verification) = []
    exact hfilter

/-- Witness for C10: a concrete fully auto-verified batch returns
`count = 0` and an empty `results` list. -/
theorem c10_returns_flagged_only_witness :
    (run_agent [⟨4, "d", "x", "Debit", 12⟩]
      [OracleItem.entry ⟨4, some "Fees", some (TagsVal.list []), none, some (95/100), some false⟩]
      (85/100)).count = 0
    ∧ (run_agent [⟨4, "d", "x", "Debit", 12⟩]
      [OracleItem.entry ⟨4, some "Fees", some (TagsVal.list []), none, some (95/100), some false⟩]
      (85/100)).results = [] :=
  (c10_returns_flagged_only [⟨4, "d", "x", "Debit", 12⟩]
    [OracleItem.entry ⟨4, some "Fees", some (TagsVal.list []), none, some (95/100), some false⟩]
    (85/100)).2.2.2 (by
      intro r hr
      have hr2 : r ∈ [mergeMatched (85/100) ⟨4, "d", "x", "Debit", 12⟩
          ⟨4, some "Fees", some (TagsVal.list []), none, some (95/100), some false⟩] := hr
      have hreq : r = mergeMatched (85/100) ⟨4, "d", "x", "Debit", 12⟩
          ⟨4, some "Fees", some (TagsVal.list []), none, some (95/100), some false⟩ := by
        simpa using hr2
      rw [hreq]
      have hcond : (85:ℚ)/100 ≤ 95/100 := by norm_num
      simp [mergeMatched, hcond])

/-- Counterexample for C6: in a two-result batch in which exactly the
first result's store update raises, the second result is not persisted —
the failure aborts the remaining items, contradicting the claim. -/
theorem c6_abort_counterexample :
    persist_results (fun i => i == 1)
        [{ id := 1, date := "d1", transaction_details := "a", amount := 10,
           transaction_type := "Debit", category := "Fees", tags := [],
           confidence := 9/10, verification_status := "ai_verified",
           requires_human_verification := false },
         { id := 2, date := "d2", transaction_details := "b", amount := 20,
           transaction_type := "Debit", category := "Fees", tags := [],
           confidence := 9/10, verification_status := "ai_verified",
           requires_human_verification := false }]
      = ([], true) := by
  decide

/-- Membership in a fold that appends per-element lists (the nested
`for` loops of the extractors). -/
theorem mem_foldr_append {α β : Type} (f : α → List β) (l : List α) (b : β) :
    b ∈ l.foldr (fun x acc => f x ++ acc) [] ↔ ∃ a ∈ l, b ∈ f a := by
  induction l with
  | nil => simp
  | cons x xs ih => simp [List.mem_append, ih]

/-- Every tuple an SBI data row emits has a positive amount. -/
theorem sbiRowTxns_amount_pos (row : PdfRow) : ∀ t ∈ sbiRowTxns row, 0 < t.amount := by
  intro t ht
  simp only [sbiRowTxns] at ht
  split at ht
  · rcases List.mem_filterMap.mp ht with ⟨i, _, heq⟩
    split at heq
    · next hpos =>
        have h2 := Option.some.inj heq
        subst h2
        exact hpos
    · exact Option.noConfusion heq
  · simp at ht

/-- Every tuple an SBI table contributes has a positive amount. -/
theorem sbiTable_amount_pos (table : PdfTable) : ∀ t ∈ sbiTable table, 0 < t.amount := by
  intro t ht
  simp only [sbiTable] at ht
  split at ht
  · simp at ht
  · split at ht
    · simp at ht
    · split at ht
      · rcases (mem_foldr_append _ _ _).mp ht with ⟨row, _, hrow⟩
        exact sbiRowTxns_amount_pos row t hrow
      · simp at ht

/-- An Axis row is only emitted with a positive amount. -/
theorem axisRowTxn_amount_pos (row : PdfRow) (t : RawTxn) :
    axisRowTxn row = some t → 0 < t.amount := by
  intro heq
  simp only [axisRowTxn] at heq
  split at heq
  · exact Option.noConfusion heq
  · split at heq
    · exact Option.noConfusion heq
    · split at heq
      · next hpos =>
          have h2 := Option.some.inj heq
          subst h2
          exact hpos
      · exact Option.noConfusion heq

/-- Every tuple an Axis table contributes has a positive amount. -/
theorem axisTable_amount_pos (table : PdfTable) : ∀ t ∈ axisTable table, 0 < t.amount := by
  intro t ht
  simp only [axisTable] at ht
  split at ht
  · simp at ht
  · rcases List.mem_filterMap.mp ht with ⟨row, _, heq⟩
    exact axisRowTxn_amount_pos row t heq

/-- A generic-extractor line is only emitted with a positive amount. -/
theorem genericLineTxn_amount_pos (line : String) (t : RawTxn) :
    genericLineTxn line = some t → 0 < t.amount := by
  intro heq
  simp only [genericLineTxn] at heq
  split at heq
  · exact Option.noConfusion heq
  · split at heq
    · next hpos =>
        have h2 := Option.some.inj heq
        subst h2
        exact hpos
    · exact Option.noConfusion heq

/-- Claim C5 (amended): `parse_amount` round-trips the rendered
`"425.00"` to `425.0`, and the SBI, Axis and generic extractors emit
only tuples with `amount > 0`; the GPay extractor, however, can emit a
tuple with amount `0.0` (see the counterexample), so the property does
not hold for every extractor. -/
theorem c5_positive_amounts_roundtrip :
    parse_amount "425.00" = 425
    ∧ (∀ pages : List (List PdfTable),
        ((extract_sbi_statement pages).all fun t => decide (0 < t.amount)) = true)
    ∧ (∀ pages : List (List PdfTable),
        ((extract_axis_statement pages).all fun t => decide (0 < t.amount)) = true)
    ∧ (∀ pages : List (Option String),
        ((extract_generic_statement pages).all fun t => decide (0 < t.amount)) = true) := by
  refine ⟨?_, ?_, ?_, ?_⟩
  · have h : parse_amount "425.00" = ((42500 : Nat) : ℚ) / 10 ^ 2 := by rfl
    rw [h]
    norm_num
  · intro pages
    rw [List.all_eq_true]
    intro t ht
    rw [decide_eq_true_eq]
    rcases (mem_foldr_append _ _ _).mp ht with ⟨tables, _, h2⟩
    rcases (mem_foldr_append _ _ _).mp h2 with ⟨table, _, h3⟩
    exact sbiTable_amount_pos table t h3
  · intro pages
    rw [List.all_eq_true]
    intro t ht
    rw [decide_eq_true_eq]
    rcases (mem_foldr_append _ _ _).mp ht with ⟨tables, _, h2⟩
    rcases (mem_foldr_append _ _ _).mp h2 with ⟨table, _, h3⟩
    exact axisTable_amount_pos table t h3
  · intro pages
    rw [List.all_eq_true]
    intro t ht
    rw [decide_eq_true_eq]
    rcases (mem_foldr_append _ _ _).mp ht with ⟨pg, _, h2⟩
    split at h2
    · simp at h2
    · split at h2
      · simp at h2
      · rcases List.mem_filterMap.mp h2 with ⟨line, _, heq⟩
        exact genericLineTxn_amount_pos line t heq

/-- Counterexample for C5: on a GPay page whose amount token after `₹`
has no digits, `parse_amount` yields `0.0` and the extractor emits the
tuple anyway — an emitted tuple with `amount = 0`. -/
theorem c5_gpay_zero_amount_counterexample :
    (extract_gpay_statement [some "01Nov,2025 Paidto ₹abc"]).toOption =
      some [{ date := "01Nov,2025", transaction_details := "Paidto",
              amount := 0, type := "Debit" }] := by
  decide

/-- Claim C9: a table that passes `is_sbi_transactions_table` but whose
first header cell does not contain `Date` contributes zero transactions
(the row loop is nested inside the first-header-cell check). -/
theorem c9_sbi_first_cell_gate :
    ∀ (table : PdfTable),
      is_sbi_transactions_table table = true →
      pyIn "Date" (cellStr ((table.headD []).headD none)) = false →
      sbiTable table = [] ∧ extract_sbi_statement [[table]] = [] := by
  intro table hval hfirst
  have hmain : sbiTable table = [] := by
    have he : table.isEmpty = false := by
      cases table with
      | nil => exact absurd hval (by decide)
      | cons a l => rfl
    have hcond : ¬ ((table.headD []) ≠ [] ∧
        pyIn "Date" (cellStr ((table.headD []).headD none)) = true) := by
      intro hc
      rw [hfirst] at hc
      exact absurd hc.2 (by decide)
    simp only [sbiTable, he, hval, hcond]
    simp
  exact ⟨hmain, by simp [extract_sbi_statement, hmain]⟩

/-- Witness for C9: a concrete table with `Date` in its second header
cell (passing validation) but not in its first contributes nothing. -/
theorem c9_sbi_first_cell_gate_witness :
    is_sbi_transactions_table [[some "Txn", some "Date", some "Amount (Rs)"],
      [some "16 Nov 25", some "CARD CASHBACK", some "1,014.00 C"]] = true
    ∧ sbiTable [[some "Txn", some "Date", some "Amount (Rs)"],
      [some "16 Nov 25", some "CARD CASHBACK", some "1,014.00 C"]] = [] :=
  ⟨by decide,
   (c9_sbi_first_cell_gate [[some "Txn", some "Date", some "Amount (Rs)"],
      [some "16 Nov 25", some "CARD CASHBACK", some "1,014.00 C"]]
      (by decide) (by decide)).1⟩

/-- Counterexample for C4: a raw row whose amount parses to a negative
number is materialized with a negative amount, refuting
`amount >= 0`. -/
theorem c4_negative_amount_counterexample :
    (to_records [⟨none, none, some "Debit", PyVal.num (-5)⟩] none none).map
        (fun r => r.amount) = [-5]
    ∧ ((-5 : ℚ) < 0) := by
  constructor
  · have h1 : normalize_amount (PyVal.num (-5)) = -5 := by
      have hprod : ((-5 : ℚ) * 100) = ((-500 : ℤ) : ℚ) := by norm_num
      simp only [normalize_amount, pyFloatVal, roundHalfEven, hprod, Int.floor_intCast]
      norm_num
    simp only [to_records, List.map_map, List.map_cons, List.map_nil, Function.comp_apply]
    rw [h1]
  · norm_num

/-- Claim C4 (amended): every amount materialized by `to_records` is an
integer multiple of 0.01 (at most 2 decimal digits) and a failed parse
yields 0.0 rather than raising — but the amount is not guaranteed
non-negative. -/
theorem c4_amount_two_decimals :
    ∀ (rows : List RawRow) (st uid : Option String) (i : Nat)
      (hi : i < rows.length) (hm : i < (to_records rows st uid).length),
      ((to_records rows st uid)[i]).amount = normalize_amount ((rows[i]).amount)
      ∧ (∃ n : ℤ, ((to_records rows st uid)[i]).amount = (n : ℚ) / 100)
      ∧ (pyFloatVal ((rows[i]).amount) = none → ((to_records rows st uid)[i]).amount = 0) := by
  intro rows st uid i hi hm
  have helem : ((to_records rows st uid)[i]).amount = normalize_amount ((rows[i]).amount) := by
    simp only [to_records, List.getElem_map]
  refine ⟨helem, ?_, ?_⟩
  · rw [helem]
    cases hv : pyFloatVal ((rows[i]).amount) with
    | some q =>
      refine ⟨roundHalfEven (q * 100), ?_⟩
      simp only [normalize_amount, hv]
    | none =>
      refine ⟨0, ?_⟩
      simp only [normalize_amount, hv]
      norm_num
  · intro h
    rw [helem]
    simp only [normalize_amount, h]

/-- Witness for C4: a row whose amount string does not parse is
materialized with amount 0. -/
theorem c4_amount_two_decimals_witness :
    ((to_records [⟨none, none, none, PyVal.str "xyz"⟩] none none).get ⟨0, by decide⟩).amount = 0 :=
  (c4_amount_two_decimals [⟨none, none, none, PyVal.str "xyz"⟩] none none 0
    (by decide) (by decide)).2.2 rfl

/-- Claim C7 (the code at the spec's failing inputs): because the
raw-string patterns escape the backslash (`\\s`), `clean_details`
leaves "paid to"/"received from" boilerplate, leading dashes and
internal whitespace untouched; the prefix is stripped only when a
literal backslash follows it. -/
theorem c7_clean_details_is_noop :
    clean_details (some "Paid to   John") = "Paid to   John"
    ∧ clean_details (some "Received from  Acme") = "Received from  Acme"
    ∧ clean_details (some "---  x") = "---  x"
    ∧ clean_details (some "Paidto\\John") = "John" := by
  decide

/-- Claim C6 (amended): a write failure is logged but aborts the rest of
the batch — `persist_results` applies updates exactly for the longest
prefix of results before the first failing item, and reports an error
iff some item fails. -/
theorem c6_write_failure_aborts_rest :
    ∀ (failsOn : Nat → Bool) (results : List MergedResult),
      persist_results failsOn results =
        ((results.takeWhile fun r => !failsOn r.id).map persistUpdate,
          results.any fun r => failsOn r.id) := by
  intro failsOn results
  induction results with
  | nil => rfl
  | cons r rs ih =>
    by_cases h : failsOn r.id
    · simp [persist_results, List.takeWhile_cons, List.any_cons, h]
    · simp [persist_results, List.takeWhile_cons, List.any_cons, h, ih]

end SmartWallet
